import Mathlib

/-!
Verification of the two-body orbit integrator in `utils.py`
(Nasadude/Python_Spacecraft).

The core of the program works on 2-dimensional numpy vectors of floating
point numbers.  We idealize the scalars as an arbitrary linearly ordered
field `K` (instantiable at `ℝ` for the mathematical reading and at `ℚ`
for concrete evaluation), and we pass the ambient square-root primitive
(`np.linalg.norm`'s square root) as an explicit function parameter
`sqrtK`, since a square root is not expressible inside a general field.
Vectors are pairs `K × K` with the componentwise addition and scalar
multiplication of the `Prod` instances, matching numpy broadcasting of
`vec + vec` and `vec * scalar`.
-/

section Core

variable {K : Type} [LinearOrderedField K]

/-- Embedding of `np.linalg.norm` of a 2-vector: `sqrt (x² + y²)`, with the ambient
square-root primitive passed explicitly. -/
def npNorm (sqrtK : K → K) (r : K × K) : K := sqrtK (r.1 ^ 2 + r.2 ^ 2)

/-- Embedding of `create_acceleration_fn` (utils.py lines 61-65):

    def create_acceleration_fn(G, M):
        def acc_fn(r_vec):
            norm = np.linalg.norm(r_vec)
            return -(G * M / norm**3) * r_vec
        return acc_fn
-/
def create_acceleration_fn (sqrtK : K → K) (G M : K) : K × K → K × K :=
  fun r_vec =>
    let norm := npNorm sqrtK r_vec
    (-(G * M / norm ^ 3)) • r_vec

/-- Embedding of `euler_step` (utils.py lines 109-114):

    a_old = acc_fn(r_old)
    r_new = r_old + v_old * dt
    v_new = v_old + a_old * dt
-/
def euler_step (r_old v_old : K × K) (dt : K) (acc_fn : K × K → K × K) :
    (K × K) × (K × K) :=
  let a_old := acc_fn r_old
  let r_new := r_old + dt • v_old
  let v_new := v_old + dt • a_old
  (r_new, v_new)

/-- Embedding of `rk4_step` (utils.py lines 117-135), transcribed line by
line from the source. -/
def rk4_step (r_old v_old : K × K) (dt : K) (acc_fn : K × K → K × K) :
    (K × K) × (K × K) :=
  let k1_v := acc_fn r_old
  let k1_r := v_old
  let k2_r := v_old + (dt / 2) • k1_v
  let k2_v := acc_fn (r_old + (dt / 2) • k1_r)
  let k3_r := v_old + (dt / 2) • k2_v
  let k3_v := acc_fn (r_old + (dt / 2) • k2_r)
  let k4_r := v_old + dt • k3_v
  let k4_v := acc_fn (r_old + dt • k3_r)
  let r_new := r_old + (dt / 6) • (k1_r + (2 : K) • k2_r + (2 : K) • k3_r + k4_r)
  let v_new := v_old + (dt / 6) • (k1_v + (2 : K) • k2_v + (2 : K) • k3_v + k4_v)
  (r_new, v_new)

/-- Python's `str.lower()` for the ASCII method names involved here:
per-character lowercasing.  (`String.toLower` itself is not used because
its byte-position recursion does not reduce in the kernel.) -/
def pyLower (s : String) : String := String.mk (s.data.map Char.toLower)

/-- Embedding of `initialize_arrays` (utils.py lines 71-78): two
`len t × 2` zero buffers whose row 0 is set to the initial state.

    r = np.zeros((len(t), 2))
    v = np.zeros((len(t), 2))
    r[0] = r0
    v[0] = v0
-/
def initialize_arrays (r0 v0 : K × K) (n : ℕ) :
    List (K × K) × List (K × K) :=
  ((List.replicate n (0 : K × K)).set 0 r0,
   (List.replicate n (0 : K × K)).set 0 v0)

/-- The lowercased method string dispatched on inside `run_integration`'s
loop body selects a stepper: `"euler" → euler_step`, `"rk4" → rk4_step`. -/
def stepOf (method : String) :
    (K × K) → (K × K) → K → ((K × K) → K × K) → (K × K) × (K × K) :=
  if method = "euler" then euler_step else rk4_step

/-- The loop body of `run_integration` (utils.py lines 146-155), iterated.
`fuel` is the number of remaining iterations of `for i in range(1, len(r))`
and `i` the current index.  Each iteration re-checks the method string, as
the source does; an unrecognized method raises (modelled as `some` error
message, the buffers being returned as mutated so far), exactly the
f-string `ValueError` of line 155 with the quotes elided. -/
def run_loop (method : String) (dt : K) (acc_fn : (K × K) → K × K) :
    ℕ → ℕ → List (K × K) × List (K × K) →
      (List (K × K) × List (K × K)) × Option String
  | 0, _, rv => (rv, none)
  | fuel + 1, i, (r, v) =>
    if method = "euler" then
      let p := euler_step (r.getD (i - 1) 0) (v.getD (i - 1) 0) dt acc_fn
      run_loop method dt acc_fn fuel (i + 1) (r.set i p.1, v.set i p.2)
    else if method = "rk4" then
      let p := rk4_step (r.getD (i - 1) 0) (v.getD (i - 1) 0) dt acc_fn
      run_loop method dt acc_fn fuel (i + 1) (r.set i p.1, v.set i p.2)
    else
      ((r, v), some ("Unknown numerical method " ++ method ++ ". Use euler or rk4."))

/-- Model of `np.argmax` on a list of scalars: the index of the first
occurrence of the maximum value, `none` on an empty list (where numpy
raises `ValueError: attempt to get argmax of an empty sequence`).  numpy
documents that the first occurrence is returned in case of ties; the
lemma `argmax_spec` below characterizes this function extensionally as
exactly that contract. -/
def argmax : List K → Option ℕ
  | [] => none
  | x :: xs =>
    match argmax xs with
    | none => some 0
    | some j => if x < xs.getD j 0 then some (j + 1) else some 0

/-- Embedding of `compute_aphelion` (utils.py lines 84-102):

    distances = np.linalg.norm(r, axis=1)
    idx_ap = int(np.argmax(distances))
    if idx_ap == 0:
        cutoff = max(1, int(len(r) * 0.05))
        idx_ap = int(np.argmax(distances[cutoff:]) + cutoff)
    pos_ap = distances[idx_ap]
    vel_ap = v[idx_ap]
    return pos_ap, vel_ap, idx_ap

`Option.bind`/`Option.map` propagate the `ValueError` numpy raises when
`argmax` meets an empty (sliced) array.  `int(len(r) * 0.05)` is embedded
as `len r / 20` (natural floor division): `0.05` rounds to a double a
relative `2⁻⁵⁴` above `1/20`, so for every realistic buffer length the
truncated product `int(N * 0.05)` equals `⌊N/20⌋`. -/
def compute_aphelion (sqrtK : K → K) (r v : List (K × K)) :
    Option (K × (K × K) × ℕ) :=
  let distances := r.map (npNorm sqrtK)
  (argmax distances).bind (fun idx0 =>
    (if idx0 = 0 then
       let cutoff := max 1 (r.length / 20)
       (argmax (distances.drop cutoff)).map (fun j => j + cutoff)
     else some idx0).map (fun idx_ap =>
       (distances.getD idx_ap 0, v.getD idx_ap 0, idx_ap)))

/-- Predicate: `i` is the position of the first maximum of `l` over the index range
`[lo, l.length)`: it is in range, its value dominates the value at every
in-range index, and strictly dominates the value at every earlier
in-range index.  This is `np.argmax`'s contract on the slice `l[lo:]`,
expressed in full-list coordinates. -/
def IsFirstMaxFrom (l : List K) (lo i : ℕ) : Prop :=
  lo ≤ i ∧ i < l.length ∧
    (∀ j, lo ≤ j → j < l.length → l.getD j 0 ≤ l.getD i 0) ∧
    (∀ j, lo ≤ j → j < i → l.getD j 0 < l.getD i 0)

/-- Embedding of `run_integration` (utils.py lines 138-155): lowercase the
method name, then run the loop `for i in range(1, len(r))`, writing
`r[i], v[i]` from `r[i-1], v[i-1]`.  The Python function mutates the
buffers in place and returns `None`; here the final buffers are returned
together with the error raised, if any. -/
def run_integration (method : String) (r v : List (K × K)) (dt : K)
    (acc_fn : (K × K) → K × K) :
    (List (K × K) × List (K × K)) × Option String :=
  run_loop (pyLower method) dt acc_fn (r.length - 1) 1 (r, v)

end Core

/-- Embedding of `np.arange(0, stop, step)` for integer arguments and `step > 0`: the
values `0, step, 2·step, …` strictly below `stop`; its length is
`⌈stop/step⌉`, i.e. `(stop + step - 1) / step` in natural division. -/
def np_arange (stop step : ℕ) : List ℕ :=
  (List.range ((stop + step - 1) / step)).map (· * step)

/-- The slice of the configuration JSON that `get_time_settings` reads:
`numerical_method_settings.time_step` (the whole block may be absent) and
the `default_simulation_days` fallback. -/
structure Config where
  numerical_time_step : Option ℕ
  default_simulation_days : Option ℕ

/-- The per-planet configuration block: an optional
`orbital_period_days`. -/
structure PlanetCfg where
  orbital_period_days : Option ℕ

/-- The `time_step` as resolved by `get_time_settings` (utils.py lines 45-46):
the configured value if the settings block is present, else 3600. -/
def resolved_time_step (cfg : Config) : ℕ :=
  cfg.numerical_time_step.getD 3600

/-- The `sim_days` as resolved by `get_time_settings` (utils.py lines 48-51):
the planet's `orbital_period_days` if present, else the config's
`default_simulation_days`, else 365. -/
def resolved_sim_days (cfg : Config) (planet_cfg : PlanetCfg) : ℕ :=
  planet_cfg.orbital_period_days.getD (cfg.default_simulation_days.getD 365)

/-- Embedding of `get_time_settings` (utils.py lines 39-56):

    t_max = sim_days * 24 * 3600
    t = np.arange(0, t_max, time_step)
    return time_step, t
-/
def get_time_settings (cfg : Config) (planet_cfg : PlanetCfg) : ℕ × List ℕ :=
  let time_step := resolved_time_step cfg
  let sim_days := resolved_sim_days cfg planet_cfg
  let t_max := sim_days * 24 * 3600
  (time_step, np_arange t_max time_step)

/-- C3: `euler_step` returns exactly `(r + v·dt, v + a(r)·dt)`, the
acceleration being evaluated once, at the position at the start of the
step.  Stated componentwise so that it does not depend on the `Prod`
algebra instances used in the embedding. -/
theorem euler_step_spec {K : Type} [LinearOrderedField K]
    (r v : K × K) (dt : K) (a : K × K → K × K) :
    euler_step r v dt a =
      ((r.1 + v.1 * dt, r.2 + v.2 * dt),
       (v.1 + (a r).1 * dt, v.2 + (a r).2 * dt)) := by
  simp only [euler_step, Prod.mk.injEq, Prod.ext_iff, Prod.fst_add, Prod.snd_add,
    Prod.smul_fst, Prod.smul_snd, smul_eq_mul]
  refine ⟨⟨by ring, by ring⟩, ⟨by ring, by ring⟩⟩

/-- C2: `rk4_step` performs the classical RK4 update: four acceleration
evaluations (`k1` at the start state, `k2`/`k3` at midpoints, `k4` at the
endpoint) combined with weights 1:2:2:1 scaled by `dt/6`, for both the
position and the velocity component.  The right-hand side is written out
from the spec's contract block, componentwise. -/
theorem rk4_step_spec {K : Type} [LinearOrderedField K]
    (r v : K × K) (dt : K) (a : K × K → K × K) :
    rk4_step r v dt a =
      (let k1_v := a r
       let k1_r := v
       let k2_r := v + (dt / 2) • k1_v
       let k2_v := a (r + (dt / 2) • k1_r)
       let k3_r := v + (dt / 2) • k2_v
       let k3_v := a (r + (dt / 2) • k2_r)
       let k4_r := v + dt • k3_v
       let k4_v := a (r + dt • k3_r)
       ((r.1 + dt / 6 * (k1_r.1 + 2 * k2_r.1 + 2 * k3_r.1 + k4_r.1),
         r.2 + dt / 6 * (k1_r.2 + 2 * k2_r.2 + 2 * k3_r.2 + k4_r.2)),
        (v.1 + dt / 6 * (k1_v.1 + 2 * k2_v.1 + 2 * k3_v.1 + k4_v.1),
         v.2 + dt / 6 * (k1_v.2 + 2 * k2_v.2 + 2 * k3_v.2 + k4_v.2)))) := by
  simp only [rk4_step, Prod.mk.injEq, Prod.ext_iff, Prod.fst_add, Prod.snd_add,
    Prod.smul_fst, Prod.smul_snd, smul_eq_mul]
  refine ⟨⟨by ring, by ring⟩, ⟨by ring, by ring⟩⟩

/-- C4: for any position of strictly positive norm the function built by
`create_acceleration_fn G M` returns exactly `-(G·M/|r|³) · r`
componentwise; it is a pure function of `r` and the captured constants. -/
theorem create_acceleration_fn_spec {K : Type} [LinearOrderedField K]
    (sqrtK : K → K) (G M : K) (r : K × K) (h : 0 < npNorm sqrtK r) :
    create_acceleration_fn sqrtK G M r =
      (-(G * M / npNorm sqrtK r ^ 3) * r.1,
       -(G * M / npNorm sqrtK r ^ 3) * r.2) := by
  simp [create_acceleration_fn, Prod.ext_iff]

/-- Writing with `List.set` at an index distinct from the queried one leaves `getD`
unchanged. -/
lemma getD_set_ne {α : Type} (l : List α) (i j : ℕ) (a d : α) (h : i ≠ j) :
    (l.set i a).getD j d = l.getD j d := by
  simp [List.getD_eq_getElem?_getD, List.getElem?_set_ne h]

/-- Writing with `List.set` at an in-bounds index makes `getD` return the new value. -/
lemma getD_set_self {α : Type} (l : List α) (j : ℕ) (a d : α)
    (h : j < l.length) :
    (l.set j a).getD j d = a := by
  simp [List.getD_eq_getElem?_getD, List.getElem?_set_self, h]

/-- One iteration of `run_loop` on an accepted (lowercased) method string:
the body writes index `i` with one application of the selected stepper to
the entries at `i - 1` and recurses. -/
lemma run_loop_succ_accepted {K : Type} [LinearOrderedField K] (m : String)
    (hm : m = "euler" ∨ m = "rk4") (dt : K) (acc_fn : (K × K) → K × K)
    (fuel i : ℕ) (r v : List (K × K)) :
    run_loop m dt acc_fn (fuel + 1) i (r, v) =
      run_loop m dt acc_fn fuel (i + 1)
        (r.set i (stepOf m (r.getD (i - 1) 0) (v.getD (i - 1) 0) dt acc_fn).1,
         v.set i (stepOf m (r.getD (i - 1) 0) (v.getD (i - 1) 0) dt acc_fn).2) := by
  rcases hm with hm | hm <;> subst hm <;> simp [run_loop, stepOf]

/-- Invariant of `run_loop` for an accepted (already lowercased) method
string: the loop never errors, preserves lengths and the entries below
the current index, and every entry from the current index on is obtained
from its immediate predecessor by exactly one application of the selected
stepper. -/
lemma run_loop_spec {K : Type} [LinearOrderedField K] (m : String)
    (hm : m = "euler" ∨ m = "rk4") (dt : K) (acc_fn : (K × K) → K × K) :
    ∀ (fuel i : ℕ) (r v : List (K × K)), 1 ≤ i → fuel + i = r.length →
      v.length = r.length →
      ∃ R V, run_loop m dt acc_fn fuel i (r, v) = ((R, V), none) ∧
        R.length = r.length ∧ V.length = r.length ∧
        (∀ j, j < i → R.getD j 0 = r.getD j 0 ∧ V.getD j 0 = v.getD j 0) ∧
        (∀ j, i ≤ j → j < r.length →
          (R.getD j 0, V.getD j 0) =
            stepOf m (R.getD (j - 1) 0) (V.getD (j - 1) 0) dt acc_fn) := by
  intro fuel
  induction fuel with
  | zero =>
    intro i r v hi hlen hvlen
    refine ⟨r, v, rfl, rfl, hvlen, fun j _ => ⟨rfl, rfl⟩, fun j hij hjr => ?_⟩
    omega
  | succ fuel ih =>
    intro i r v hi hlen hvlen
    have hir : i < r.length := by omega
    set p := stepOf (K := K) m (r.getD (i - 1) 0) (v.getD (i - 1) 0) dt acc_fn
      with hp
    have hrw : run_loop m dt acc_fn (fuel + 1) i (r, v) =
        run_loop m dt acc_fn fuel (i + 1) (r.set i p.1, v.set i p.2) :=
      run_loop_succ_accepted m hm dt acc_fn fuel i r v
    obtain ⟨R, V, hrun, hRlen, hVlen, hpre, hstep⟩ :=
      ih (i + 1) (r.set i p.1) (v.set i p.2) (by omega)
        (by rw [List.length_set]; omega)
        (by rw [List.length_set, List.length_set]; omega)
    rw [List.length_set] at hRlen hVlen
    refine ⟨R, V, by rw [hrw]; exact hrun, hRlen, hVlen, ?_, ?_⟩
    · intro j hj
      obtain ⟨h1, h2⟩ := hpre j (by omega)
      rw [getD_set_ne r i j _ _ (by omega)] at h1
      rw [getD_set_ne v i j _ _ (by omega)] at h2
      exact ⟨h1, h2⟩
    · intro j hij hjr
      rcases Nat.eq_or_lt_of_le hij with hij' | hij'
      · -- j = i : the freshly written entry
        obtain ⟨h1, h2⟩ := hpre j (by omega)
        rw [← hij'] at h1 h2 ⊢
        rw [getD_set_self r i _ _ hir] at h1
        rw [getD_set_self v i _ _ (by omega)] at h2
        obtain ⟨h1', h2'⟩ := hpre (i - 1) (by omega)
        rw [getD_set_ne r i (i - 1) _ _ (by omega)] at h1'
        rw [getD_set_ne v i (i - 1) _ _ (by omega)] at h2'
        rw [h1, h2, h1', h2', ← hp]
      · -- j > i : covered by the induction hypothesis
        exact hstep j (by omega) (by rw [List.length_set]; omega)

/-- C1: for every initial state, time step, buffer length `N ≥ 1` and
accepted method name (`euler` or `rk4` up to case), `run_integration` on
the buffers seeded by `initialize_arrays` succeeds (no error) and fills a
trajectory of length `N` whose sample 0 is exactly the initial state and
whose sample `i` (for `1 ≤ i ≤ N-1`) is exactly one application of the
selected stepper to sample `i-1` with step `dt`. -/
theorem run_integration_trajectory {K : Type} [LinearOrderedField K]
    (method : String) (r0 v0 : K × K) (dt : K) (acc_fn : (K × K) → K × K)
    (N : ℕ) (hN : 1 ≤ N)
    (hm : pyLower method = "euler" ∨ pyLower method = "rk4") :
    ∃ R V, run_integration method (initialize_arrays r0 v0 N).1
        (initialize_arrays r0 v0 N).2 dt acc_fn = ((R, V), none) ∧
      R.length = N ∧ V.length = N ∧
      R.getD 0 0 = r0 ∧ V.getD 0 0 = v0 ∧
      ∀ i, 1 ≤ i → i < N →
        (R.getD i 0, V.getD i 0) =
          stepOf (pyLower method) (R.getD (i - 1) 0) (V.getD (i - 1) 0)
            dt acc_fn := by
  have hrlen : (initialize_arrays r0 v0 N).1.length = N := by
    simp [initialize_arrays]
  have hvlen : (initialize_arrays r0 v0 N).2.length = N := by
    simp [initialize_arrays]
  obtain ⟨R, V, hrun, hRlen, hVlen, hpre, hstep⟩ :=
    run_loop_spec (pyLower method) hm dt acc_fn (N - 1) 1
      (initialize_arrays r0 v0 N).1 (initialize_arrays r0 v0 N).2
      le_rfl (by omega) (by omega)
  have hr0 : (initialize_arrays r0 v0 N).1.getD 0 0 = r0 := by
    cases N with
    | zero => omega
    | succ n => simp [initialize_arrays, List.replicate_succ]
  have hv0 : (initialize_arrays r0 v0 N).2.getD 0 0 = v0 := by
    cases N with
    | zero => omega
    | succ n => simp [initialize_arrays, List.replicate_succ]
  refine ⟨R, V, ?_, by omega, by omega, ?_, ?_, ?_⟩
  · rw [run_integration, hrlen]
    exact hrun
  · rw [(hpre 0 (by omega)).1, hr0]
  · rw [(hpre 0 (by omega)).2, hv0]
  · intro i hi1 hiN
    exact hstep i hi1 (by omega)

/-- Witness for C1: an Euler run over `ℚ` with `N = 3`, a mixed-case
method name, initial state `((1,0),(0,1))`, `dt = 1` and the zero
acceleration field. -/
theorem run_integration_trajectory_witness :
    (1 ≤ 3 ∧ (pyLower "Euler" = "euler" ∨ pyLower "Euler" = "rk4")) ∧
    ∃ R V, run_integration "Euler"
        (initialize_arrays ((1 : ℚ), (0 : ℚ)) ((0 : ℚ), (1 : ℚ)) 3).1
        (initialize_arrays ((1 : ℚ), (0 : ℚ)) ((0 : ℚ), (1 : ℚ)) 3).2 1
        (fun _ => 0) = ((R, V), none) ∧
      R.length = 3 ∧ V.length = 3 ∧
      R.getD 0 0 = ((1 : ℚ), (0 : ℚ)) ∧ V.getD 0 0 = ((0 : ℚ), (1 : ℚ)) ∧
      ∀ i, 1 ≤ i → i < 3 →
        (R.getD i 0, V.getD i 0) =
          stepOf (pyLower "Euler") (R.getD (i - 1) 0) (V.getD (i - 1) 0)
            1 (fun _ => 0) :=
  ⟨⟨by omega, by decide⟩,
   run_integration_trajectory "Euler" ((1 : ℚ), (0 : ℚ)) ((0 : ℚ), (1 : ℚ))
     1 (fun _ => 0) 3 (by omega) (by decide)⟩

/-- C6 (amended): with at least one loop iteration to perform
(`2 ≤ len r`), a method name that lowercases to neither `euler` nor `rk4`
makes `run_integration` fail on the first iteration with the error message
naming the (lowercased) offending string and both accepted values, before
any stepper call, and with both buffers returned exactly as passed in —
no entry mutated. -/
theorem run_integration_unknown_method {K : Type} [LinearOrderedField K]
    (method : String) (r v : List (K × K)) (dt : K)
    (acc_fn : (K × K) → K × K)
    (h1 : pyLower method ≠ "euler") (h2 : pyLower method ≠ "rk4")
    (hlen : 2 ≤ r.length) :
    run_integration method r v dt acc_fn =
      ((r, v), some ("Unknown numerical method " ++ pyLower method ++
        ". Use euler or rk4.")) := by
  obtain ⟨f, hf⟩ : ∃ f, r.length - 1 = f + 1 := ⟨r.length - 2, by omega⟩
  rw [run_integration, hf, run_loop, if_neg h1, if_neg h2]

/-- Witness for C6's amended statement: method `"Leapfrog"`, buffers of
length 2. -/
theorem run_integration_unknown_method_witness :
    (pyLower "Leapfrog" ≠ "euler" ∧ pyLower "Leapfrog" ≠ "rk4" ∧
      2 ≤ [((1 : ℚ), (0 : ℚ)), ((2 : ℚ), (0 : ℚ))].length) ∧
    run_integration "Leapfrog" [((1 : ℚ), (0 : ℚ)), ((2 : ℚ), (0 : ℚ))]
        [((0 : ℚ), (0 : ℚ)), ((0 : ℚ), (1 : ℚ))] 1 (fun _ => 0) =
      (([((1 : ℚ), (0 : ℚ)), ((2 : ℚ), (0 : ℚ))],
        [((0 : ℚ), (0 : ℚ)), ((0 : ℚ), (1 : ℚ))]),
       some ("Unknown numerical method " ++ pyLower "Leapfrog" ++
        ". Use euler or rk4.")) :=
  ⟨⟨by decide, by decide, by decide⟩,
   run_integration_unknown_method "Leapfrog"
     [((1 : ℚ), (0 : ℚ)), ((2 : ℚ), (0 : ℚ))]
     [((0 : ℚ), (0 : ℚ)), ((0 : ℚ), (1 : ℚ))] 1 (fun _ => 0)
     (by decide) (by decide) (by decide)⟩

/-- Counterexample to C6 as stated: the method check sits inside the loop
body, so with a length-1 buffer (`N = 1`, zero iterations) the unknown
method name `"leapfrog"` produces no error at all — the run returns
normally. -/
theorem run_integration_unknown_method_no_error_at_length_one :
    run_integration "leapfrog" [((1 : ℚ), (0 : ℚ))] [((0 : ℚ), (0 : ℚ))] 1
        (fun _ => 0) =
      (([((1 : ℚ), (0 : ℚ))], [((0 : ℚ), (0 : ℚ))]), none) := rfl

/-- Witness for C4 over `ℚ` with the identity as square-root stand-in, at
the concrete position (3, 4). -/
theorem create_acceleration_fn_spec_witness :
    create_acceleration_fn (fun x => x) 2 5 ((3 : ℚ), (4 : ℚ)) =
      (-(2 * 5 / npNorm (fun x => x) ((3 : ℚ), (4 : ℚ)) ^ 3) * 3,
       -(2 * 5 / npNorm (fun x => x) ((3 : ℚ), (4 : ℚ)) ^ 3) * 4) := by
  have h : (0 : ℚ) < npNorm (fun x => x) ((3 : ℚ), (4 : ℚ)) := by
    norm_num [npNorm]
  exact create_acceleration_fn_spec (fun x => x) 2 5 ((3 : ℚ), (4 : ℚ)) h

/-- The function `argmax` returns `none` exactly on the empty list. -/
lemma argmax_eq_none_iff {K : Type} [LinearOrderedField K] (l : List K) :
    argmax l = none ↔ l = [] := by
  cases l with
  | nil => simp [argmax]
  | cons x xs =>
    cases h : argmax xs with
    | none => simp [argmax, h]
    | some j =>
      simp only [argmax, h]
      split <;> simp

/-- The function `argmax` returns an index on every non-empty list. -/
lemma argmax_isSome {K : Type} [LinearOrderedField K] (l : List K)
    (h : l ≠ []) : ∃ i, argmax l = some i := by
  cases hl : argmax l with
  | none => exact absurd ((argmax_eq_none_iff l).mp hl) h
  | some i => exact ⟨i, rfl⟩

/-- Extensional contract of `argmax`: the returned index is that of the
first occurrence of the maximum. -/
lemma argmax_spec {K : Type} [LinearOrderedField K] (l : List K) (i : ℕ)
    (h : argmax l = some i) : IsFirstMaxFrom l 0 i := by
  induction l generalizing i with
  | nil => simp [argmax] at h
  | cons x xs ih =>
    cases hxs : argmax xs with
    | none =>
      have hnil : xs = [] := (argmax_eq_none_iff xs).mp hxs
      subst hnil
      simp [argmax] at h
      subst h
      refine ⟨le_rfl, by simp, ?_, ?_⟩
      · intro j _ hj
        have hj0 : j = 0 := by simpa using Nat.lt_one_iff.mp hj
        subst hj0
        exact le_rfl
      · intro j _ hj
        omega
    | some j =>
      obtain ⟨-, hjlen, hmax, hfirst⟩ := ih j hxs
      by_cases hlt : x < xs.getD j 0
      · have hi : i = j + 1 := by
          simp only [argmax, hxs, if_pos hlt, Option.some.injEq] at h
          omega
        subst hi
        refine ⟨Nat.zero_le _, by simp; omega, ?_, ?_⟩
        · intro k _ hk
          cases k with
          | zero => simpa using le_of_lt hlt
          | succ k' =>
            simp only [List.getD_cons_succ]
            exact hmax k' (Nat.zero_le _) (by simpa using hk)
        · intro k _ hk
          cases k with
          | zero => simpa using hlt
          | succ k' =>
            simp only [List.getD_cons_succ]
            exact hfirst k' (Nat.zero_le _) (by omega)
      · have hi : i = 0 := by
          simp only [argmax, hxs, if_neg hlt, Option.some.injEq] at h
          omega
        subst hi
        refine ⟨le_rfl, by simp, ?_, ?_⟩
        · intro k _ hk
          cases k with
          | zero => exact le_rfl
          | succ k' =>
            simp only [List.getD_cons_succ, List.getD_cons_zero]
            exact le_trans (hmax k' (Nat.zero_le _) (by simpa using hk))
              (not_lt.mp hlt)
        · intro k _ hk
          omega

/-- The first maximum over a given index range is unique. -/
lemma isFirstMaxFrom_unique {K : Type} [LinearOrderedField K] (l : List K)
    (lo i i' : ℕ) (h : IsFirstMaxFrom l lo i) (h' : IsFirstMaxFrom l lo i') :
    i = i' := by
  obtain ⟨hlo, hlen, hmax, hfirst⟩ := h
  obtain ⟨hlo', hlen', hmax', hfirst'⟩ := h'
  by_contra hne
  rcases Nat.lt_or_ge i i' with hlt | hge
  · exact absurd (hmax i' hlo' hlen') (not_le.mpr (hfirst' i hlo hlt))
  · have hlt' : i' < i := by omega
    exact absurd (hmax' i hlo hlen) (not_le.mpr (hfirst i' hlo' hlt'))

/-- Reading `getD` through `List.drop`, in full-list coordinates. -/
lemma getD_drop' {α : Type} (l : List α) (c j : ℕ) (d : α) :
    (l.drop c).getD j d = l.getD (c + j) d := by
  simp [List.getD_eq_getElem?_getD, List.getElem?_drop]

/-- Reading `getD` through `List.map` at an in-range index. -/
lemma getD_map_lt {α β : Type} (f : α → β) (l : List α) (i : ℕ)
    (h : i < l.length) (d : β) (e : α) :
    (l.map f).getD i d = f (l.getD i e) := by
  simp [List.getD_eq_getElem?_getD, List.getElem?_map]
  simp [List.getElem?_eq_getElem h]

/-- A first maximum of the suffix `l.drop c`, offset back by `c`, is the
first maximum of `l` over the index range `[c, l.length)`. -/
lemma isFirstMaxFrom_of_drop {K : Type} [LinearOrderedField K]
    (l : List K) (c j : ℕ) (h : IsFirstMaxFrom (l.drop c) 0 j) :
    IsFirstMaxFrom l c (j + c) := by
  obtain ⟨-, hlen, hmax, hfirst⟩ := h
  rw [List.length_drop] at hlen
  have hcj : c + j = j + c := Nat.add_comm c j
  refine ⟨by omega, by omega, ?_, ?_⟩
  · intro k hck hkl
    have h2 := hmax (k - c) (Nat.zero_le _) (by rw [List.length_drop]; omega)
    rw [getD_drop', getD_drop', show c + (k - c) = k by omega, hcj] at h2
    exact h2
  · intro k hck hkj
    have h2 := hfirst (k - c) (Nat.zero_le _) (by omega)
    rw [getD_drop', getD_drop', show c + (k - c) = k by omega, hcj] at h2
    exact h2

/-- Full characterization of `compute_aphelion` on a trajectory of at
least two samples; shared by the claim theorems below. -/
lemma compute_aphelion_main {K : Type} [LinearOrderedField K]
    (sqrtK : K → K) (r v : List (K × K)) (h2 : 2 ≤ r.length) :
    ∃ d vel i, compute_aphelion sqrtK r v = some (d, vel, i) ∧
      1 ≤ i ∧ i < r.length ∧
      d = (r.map (npNorm sqrtK)).getD i 0 ∧ vel = v.getD i 0 ∧
      ((IsFirstMaxFrom (r.map (npNorm sqrtK)) 0 0 ∧
          IsFirstMaxFrom (r.map (npNorm sqrtK)) (max 1 (r.length / 20)) i) ∨
        (¬ IsFirstMaxFrom (r.map (npNorm sqrtK)) 0 0 ∧
          IsFirstMaxFrom (r.map (npNorm sqrtK)) 0 i)) := by
  have hdsl : (r.map (npNorm sqrtK)).length = r.length := List.length_map _ _
  have hne : r.map (npNorm sqrtK) ≠ [] := by
    have hpos : 0 < (r.map (npNorm sqrtK)).length := by rw [hdsl]; omega
    exact List.length_pos.mp hpos
  obtain ⟨i0, hi0⟩ := argmax_isSome _ hne
  have spec0 := argmax_spec _ i0 hi0
  by_cases h0 : i0 = 0
  · -- fallback branch: the raw argmax is the seed sample
    subst h0
    have hcut : max 1 (r.length / 20) < r.length :=
      Nat.max_lt.mpr ⟨by omega, Nat.div_lt_self (by omega) (by omega)⟩
    have hdrop_ne : (r.map (npNorm sqrtK)).drop (max 1 (r.length / 20)) ≠ [] := by
      have hpos : 0 < ((r.map (npNorm sqrtK)).drop (max 1 (r.length / 20))).length := by
        rw [List.length_drop, hdsl]
        omega
      exact List.length_pos.mp hpos
    obtain ⟨j, hj⟩ := argmax_isSome _ hdrop_ne
    have specj := argmax_spec _ j hj
    refine ⟨(r.map (npNorm sqrtK)).getD (j + max 1 (r.length / 20)) 0,
      v.getD (j + max 1 (r.length / 20)) 0, j + max 1 (r.length / 20),
      ?_, by omega, ?_, rfl, rfl, ?_⟩
    · simp only [compute_aphelion, hi0, Option.some_bind, eq_self_iff_true,
        if_true, hj, Option.map_some']
    · have := specj.2.1
      rw [List.length_drop, hdsl] at this
      omega
    · exact Or.inl ⟨spec0, isFirstMaxFrom_of_drop _ _ _ specj⟩
  · -- the raw argmax already avoids the seed sample
    refine ⟨(r.map (npNorm sqrtK)).getD i0 0, v.getD i0 0, i0,
      ?_, by omega, by rw [← hdsl]; exact spec0.2.1, rfl, rfl, ?_⟩
    · simp only [compute_aphelion, hi0, Option.some_bind, if_neg h0,
        Option.map_some']
    · exact Or.inr ⟨fun hfm0 => h0 (isFirstMaxFrom_unique _ 0 i0 0 spec0 hfm0),
        spec0⟩

/-- C5: on a completed trajectory of at least two samples,
`compute_aphelion` takes the Euclidean norm of every position sample and
the first argmax; exactly when that unconstrained argmax is sample 0, it
redoes the search over samples `max 1 ⌊N/20⌋` onward (excluding at least
one sample) with the result offset back into full-trajectory
coordinates; and it returns the distance, the velocity vector, and the
sample index at the selected sample. -/
theorem compute_aphelion_spec {K : Type} [LinearOrderedField K]
    (sqrtK : K → K) (r v : List (K × K)) (hv : v.length = r.length)
    (h2 : 2 ≤ r.length) :
    ∃ d vel i, compute_aphelion sqrtK r v = some (d, vel, i) ∧
      i < r.length ∧ d = npNorm sqrtK (r.getD i 0) ∧ vel = v.getD i 0 ∧
      ((IsFirstMaxFrom (r.map (npNorm sqrtK)) 0 0 ∧
          IsFirstMaxFrom (r.map (npNorm sqrtK)) (max 1 (r.length / 20)) i) ∨
        (¬ IsFirstMaxFrom (r.map (npNorm sqrtK)) 0 0 ∧
          IsFirstMaxFrom (r.map (npNorm sqrtK)) 0 i)) := by
  obtain ⟨d, vel, i, hres, -, hilen, hd, hvel, hdisj⟩ :=
    compute_aphelion_main sqrtK r v h2
  refine ⟨d, vel, i, hres, hilen, ?_, hvel, hdisj⟩
  rw [hd, getD_map_lt (npNorm sqrtK) r i hilen 0 0]

/-- Witness for C5: the two-sample trajectory `[(3,0), (4,0)]` with the
identity as square-root stand-in over `ℚ`. -/
theorem compute_aphelion_spec_witness :
    ([((0 : ℚ), (0 : ℚ)), ((0 : ℚ), (1 : ℚ))].length =
        [((3 : ℚ), (0 : ℚ)), ((4 : ℚ), (0 : ℚ))].length ∧
      2 ≤ [((3 : ℚ), (0 : ℚ)), ((4 : ℚ), (0 : ℚ))].length) ∧
    ∃ d vel i, compute_aphelion (fun x => x)
        [((3 : ℚ), (0 : ℚ)), ((4 : ℚ), (0 : ℚ))]
        [((0 : ℚ), (0 : ℚ)), ((0 : ℚ), (1 : ℚ))] = some (d, vel, i) ∧
      i < [((3 : ℚ), (0 : ℚ)), ((4 : ℚ), (0 : ℚ))].length ∧
      d = npNorm (fun x => x)
          ([((3 : ℚ), (0 : ℚ)), ((4 : ℚ), (0 : ℚ))].getD i 0) ∧
      vel = [((0 : ℚ), (0 : ℚ)), ((0 : ℚ), (1 : ℚ))].getD i 0 ∧
      ((IsFirstMaxFrom ([((3 : ℚ), (0 : ℚ)), ((4 : ℚ), (0 : ℚ))].map
            (npNorm (fun x => x))) 0 0 ∧
          IsFirstMaxFrom ([((3 : ℚ), (0 : ℚ)), ((4 : ℚ), (0 : ℚ))].map
            (npNorm (fun x => x)))
            (max 1 ([((3 : ℚ), (0 : ℚ)), ((4 : ℚ), (0 : ℚ))].length / 20)) i) ∨
        (¬ IsFirstMaxFrom ([((3 : ℚ), (0 : ℚ)), ((4 : ℚ), (0 : ℚ))].map
            (npNorm (fun x => x))) 0 0 ∧
          IsFirstMaxFrom ([((3 : ℚ), (0 : ℚ)), ((4 : ℚ), (0 : ℚ))].map
            (npNorm (fun x => x))) 0 i)) :=
  ⟨⟨by decide, by decide⟩,
   compute_aphelion_spec (fun x => x)
     [((3 : ℚ), (0 : ℚ)), ((4 : ℚ), (0 : ℚ))]
     [((0 : ℚ), (0 : ℚ)), ((0 : ℚ), (1 : ℚ))] (by decide) (by decide)⟩

/-- C10: on a trajectory with at least two position samples the index
returned by `compute_aphelion` is at least 1, never 0. -/
theorem compute_aphelion_index_ge_one {K : Type} [LinearOrderedField K]
    (sqrtK : K → K) (r v : List (K × K)) (h2 : 2 ≤ r.length) :
    ∃ d vel i, compute_aphelion sqrtK r v = some (d, vel, i) ∧ 1 ≤ i := by
  obtain ⟨d, vel, i, hres, hi1, -, -, -, -⟩ := compute_aphelion_main sqrtK r v h2
  exact ⟨d, vel, i, hres, hi1⟩

/-- Witness for C10: a two-sample trajectory whose global maximum is at
sample 0, forcing the fallback search — the returned index is still 1. -/
theorem compute_aphelion_index_ge_one_witness :
    2 ≤ [((5 : ℚ), (0 : ℚ)), ((4 : ℚ), (0 : ℚ))].length ∧
    ∃ d vel i, compute_aphelion (fun x => x)
        [((5 : ℚ), (0 : ℚ)), ((4 : ℚ), (0 : ℚ))]
        [((0 : ℚ), (0 : ℚ)), ((0 : ℚ), (1 : ℚ))] = some (d, vel, i) ∧
      1 ≤ i :=
  ⟨by decide,
   compute_aphelion_index_ge_one (fun x => x)
     [((5 : ℚ), (0 : ℚ)), ((4 : ℚ), (0 : ℚ))]
     [((0 : ℚ), (0 : ℚ)), ((0 : ℚ), (1 : ℚ))] (by decide)⟩

/-- C7: on a trajectory of fewer than two samples `compute_aphelion`
fails — the error numpy raises for the argmax of an empty (sliced) array
propagates, and no sample of the trajectory is selected or returned. -/
theorem compute_aphelion_short_trajectory {K : Type} [LinearOrderedField K]
    (sqrtK : K → K) (r v : List (K × K)) (h : r.length < 2) :
    compute_aphelion sqrtK r v = none := by
  match r, h with
  | [], _ => rfl
  | [a], _ => simp [compute_aphelion, argmax]

/-- Witness for C7: a single-sample trajectory over `ℚ`. -/
theorem compute_aphelion_short_trajectory_witness :
    [((1 : ℚ), (0 : ℚ))].length < 2 ∧
    compute_aphelion (fun x => x) [((1 : ℚ), (0 : ℚ))]
        [((0 : ℚ), (0 : ℚ))] = none :=
  ⟨by decide,
   compute_aphelion_short_trajectory (fun x => x) [((1 : ℚ), (0 : ℚ))]
     [((0 : ℚ), (0 : ℚ))] (by decide)⟩

/-- Counterexample to C9 as stated: with `time_step = 7` seconds and one
simulated day (86400 s), `np.arange(0, 86400, 7)` has
`⌈86400/7⌉ = 12343` entries, not `⌊86400/7⌋ = 12342` — the buffer length
is the ceiling, not the floor, whenever the step does not divide the
total simulated time. -/
theorem get_time_settings_floor_counterexample :
    (0 < resolved_time_step ⟨some 7, none⟩ ∧
      0 < resolved_sim_days ⟨some 7, none⟩ ⟨some 1⟩) ∧
    (get_time_settings ⟨some 7, none⟩ ⟨some 1⟩).2.length ≠
      (resolved_sim_days ⟨some 7, none⟩ ⟨some 1⟩ * 24 * 3600) /
        resolved_time_step ⟨some 7, none⟩ := by
  refine ⟨⟨by decide, by decide⟩, ?_⟩
  simp [get_time_settings, np_arange, resolved_time_step, resolved_sim_days]

/-- C9 (amended): for positive resolved `time_step` and positive resolved
simulated days, the time grid built by `get_time_settings` has exactly
`N = ⌈total_simulated_time / time_step⌉` samples (with
`total_simulated_time = sim_days · 24 · 3600`), and the trajectory
buffers allocated by `initialize_arrays` for that grid both have exactly
that length. -/
theorem get_time_settings_buffer_length {K : Type} [LinearOrderedField K]
    (cfg : Config) (planet_cfg : PlanetCfg) (r0 v0 : K × K)
    (hstep : 0 < resolved_time_step cfg)
    (hdays : 0 < resolved_sim_days cfg planet_cfg) :
    (get_time_settings cfg planet_cfg).2.length =
      (resolved_sim_days cfg planet_cfg * 24 * 3600 +
        resolved_time_step cfg - 1) / resolved_time_step cfg ∧
    (initialize_arrays r0 v0
        (get_time_settings cfg planet_cfg).2.length).1.length =
      (get_time_settings cfg planet_cfg).2.length ∧
    (initialize_arrays r0 v0
        (get_time_settings cfg planet_cfg).2.length).2.length =
      (get_time_settings cfg planet_cfg).2.length := by
  refine ⟨?_, ?_, ?_⟩ <;> simp [get_time_settings, np_arange, initialize_arrays]

/-- Witness for C9's amended statement: the default configuration
(`time_step = 3600`, 365 simulated days) over `ℚ`. -/
theorem get_time_settings_buffer_length_witness :
    (0 < resolved_time_step ⟨some 3600, none⟩ ∧
      0 < resolved_sim_days ⟨some 3600, none⟩ ⟨none⟩) ∧
    ((get_time_settings ⟨some 3600, none⟩ ⟨none⟩).2.length =
      (resolved_sim_days ⟨some 3600, none⟩ ⟨none⟩ * 24 * 3600 +
        resolved_time_step ⟨some 3600, none⟩ - 1) /
        resolved_time_step ⟨some 3600, none⟩ ∧
    (initialize_arrays ((1 : ℚ), (0 : ℚ)) ((0 : ℚ), (1 : ℚ))
        (get_time_settings ⟨some 3600, none⟩ ⟨none⟩).2.length).1.length =
      (get_time_settings ⟨some 3600, none⟩ ⟨none⟩).2.length ∧
    (initialize_arrays ((1 : ℚ), (0 : ℚ)) ((0 : ℚ), (1 : ℚ))
        (get_time_settings ⟨some 3600, none⟩ ⟨none⟩).2.length).2.length =
      (get_time_settings ⟨some 3600, none⟩ ⟨none⟩).2.length) :=
  ⟨⟨by decide, by decide⟩,
   get_time_settings_buffer_length ⟨some 3600, none⟩ ⟨none⟩
     ((1 : ℚ), (0 : ℚ)) ((0 : ℚ), (1 : ℚ)) (by decide) (by decide)⟩
